import Mathlib

/-!
Verification of the event-management registration engine.

This file is a shallow embedding of the registration engine of the
`event-management` service: the `events` / `registrations` schema
(`database/schema/002_create_events_table.sql`,
`database/schema/003_create_registrations_table.sql`, including the
`update_event_registration_count` and `validate_event_registration`
triggers and the `safe_event_registration` / `safe_event_unregistration`
PL/pgSQL functions of migration 004), and the HTTP controller layer
(`src/controllers/eventController.js`, `src/middleware/eventValidation.js`).

Conventions of the embedding:
* Timestamps are integers (epoch milliseconds); every operation takes a
  single `now`, matching a call during which `CURRENT_TIMESTAMP` /
  `new Date()` is read once.
* A SQL exception aborts the enclosing transaction: the embedded
  operation returns an error together with the unchanged database value.
* `AFTER` row triggers see the row change that fired them, as in
  PostgreSQL, so the count recomputed by `update_event_registration_count`
  after an `INSERT` includes the new row.
* Row sets are lists; `SELECT ... WHERE` is `List.filter` / `List.find?`.
-/

namespace EventMgmt

/-- Registration status; the schema CHECK allows exactly these three values
(`status IN ('confirmed', 'cancelled', 'waitlist')`). -/
inductive RegStatus
  | confirmed
  | cancelled
  | waitlist
deriving DecidableEq, Repr

/-- A row of the `events` table (the columns the engine reads). -/
structure Event where
  id : Nat
  title : String
  dateTime : Int
  location : Option String
  capacity : Nat
  currentRegistrations : Nat
  createdBy : Nat
  isActive : Bool
  createdAt : Int
deriving DecidableEq, Repr

/-- A row of the `registrations` table. -/
structure Registration where
  id : Nat
  userId : Nat
  eventId : Nat
  registeredAt : Int
  status : RegStatus
deriving DecidableEq, Repr

/-- The relational store: the `events` and `registrations` tables plus the
`registrations.id` sequence. -/
structure DB where
  events : List Event
  registrations : List Registration
  nextRegId : Nat
deriving DecidableEq, Repr

/-- The confirmed registrations of event `eid` inside a row list. -/
def confirmedInList (l : List Registration) (eid : Nat) : Nat :=
  (l.filter (fun r => r.eventId == eid && r.status == RegStatus.confirmed)).length

/-- Source `SELECT COUNT(*) FROM registrations WHERE event_id = eid AND status = 'confirmed'`. -/
def confirmedRegCount (db : DB) (eid : Nat) : Nat :=
  confirmedInList db.registrations eid

/-- Source `SELECT ... FROM events WHERE id = eid AND is_active = true` (first row). -/
def findActiveEvent (db : DB) (eid : Nat) : Option Event :=
  db.events.find? (fun e => e.id == eid && e.isActive)

/-- Source `SELECT ... FROM events WHERE id = eid` (first row); used by the triggers,
which do not filter on `is_active`. -/
def findEventById (db : DB) (eid : Nat) : Option Event :=
  db.events.find? (fun e => e.id == eid)

/-- Source `SELECT ... FROM registrations WHERE user_id = uid AND event_id = eid`. -/
def regsFor (db : DB) (uid eid : Nat) : List Registration :=
  db.registrations.filter (fun r => r.userId == uid && r.eventId == eid)

/-- Source `UPDATE events SET current_registrations = cnt WHERE id = eid`. -/
def setEventCount (db : DB) (eid cnt : Nat) : DB :=
  { db with
      events := db.events.map
        (fun e => if e.id = eid then { e with currentRegistrations := cnt } else e) }

/-- A raised SQL error: SQLSTATE and message. -/
structure SqlErr where
  code : String
  msg : String
deriving DecidableEq, Repr

/-- The `validate_event_registration` BEFORE INSERT trigger on
`registrations`: event must exist, be active, and lie in the future.
Returns the raised error, if any. -/
def validate_event_registration (db : DB) (eid : Nat) (now : Int) : Option SqlErr :=
  match findEventById db eid with
  | none => some ⟨"P0001", "Event does not exist"⟩
  | some ev =>
    if ev.isActive = false then
      some ⟨"P0001", "Cannot register for inactive event"⟩
    else if ev.dateTime ≤ now then
      some ⟨"P0001", "Cannot register for past events"⟩
    else none

/-- The INSERT branch of the `update_event_registration_count` AFTER trigger.
`db` already contains the newly inserted row.  It recounts the confirmed
registrations (the new row included), raises when the count reaches the
event capacity, and otherwise writes the recount into
`events.current_registrations`. -/
def update_event_registration_count_ins (db : DB) (eid : Nat) : Except SqlErr DB :=
  let current_count := confirmedRegCount db eid
  match findEventById db eid with
  | none => Except.ok (setEventCount db eid current_count)
  | some ev =>
    if current_count ≥ ev.capacity then
      Except.error ⟨"P0001", "Event has reached maximum capacity of " ++ toString ev.capacity⟩
    else
      Except.ok (setEventCount db eid current_count)

/-- The row inserted by `INSERT INTO registrations (user_id, event_id, status)
VALUES (uid, eid, 'confirmed')`. -/
def mkRegistration (db : DB) (uid eid : Nat) (now : Int) : Registration :=
  ⟨db.nextRegId, uid, eid, now, RegStatus.confirmed⟩

/-- Source `INSERT INTO registrations (user_id, event_id, status) VALUES (uid, eid,
'confirmed') RETURNING id`: BEFORE trigger, unique constraint
`unique_user_event_registration`, the insert itself, then the AFTER count
trigger.  Any error aborts the statement and leaves the store unchanged. -/
def insertRegistration (db : DB) (uid eid : Nat) (now : Int) :
    Except SqlErr (DB × Nat) :=
  match validate_event_registration db eid now with
  | some e => Except.error e
  | none =>
    if (regsFor db uid eid).isEmpty = false then
      Except.error ⟨"23505", "duplicate key value violates unique constraint"⟩
    else
      let rid := db.nextRegId
      let db1 : DB :=
        { db with
            registrations := db.registrations ++ [mkRegistration db uid eid now]
            nextRegId := rid + 1 }
      match update_event_registration_count_ins db1 eid with
      | Except.error e => Except.error e
      | Except.ok db2 => Except.ok (db2, rid)

/-- Result of the `safe_event_registration` PL/pgSQL function: the JSON
`{success: true, registration_id, registered_at}` or
`{success: false, error_code, error_message}`. -/
inductive SafeRegResult
  | ok (db : DB) (regId : Nat) (registeredAt : Int)
  | err (e : SqlErr)
deriving DecidableEq, Repr

/-- Source `safe_event_registration(p_user_id, p_event_id)`: under the per-event
advisory lock it re-reads the event row `FOR UPDATE`, rejects inactive or
missing events (P0001), past events (P0002), an existing registration of any
status (P0003), and a full event (P0004), then inserts the confirmed row.
Exceptions raised inside (including by the triggers) are caught and returned
as `{success: false, ...}` with the transaction's work rolled back. -/
def safe_event_registration (db : DB) (uid eid : Nat) (now : Int) : SafeRegResult :=
  match findActiveEvent db eid with
  | none => SafeRegResult.err ⟨"P0001", "Event not found or inactive"⟩
  | some ev =>
    if ev.dateTime ≤ now then
      SafeRegResult.err ⟨"P0002", "Cannot register for past events"⟩
    else if (regsFor db uid eid).isEmpty = false then
      SafeRegResult.err ⟨"P0003", "User already registered for this event"⟩
    else if ev.currentRegistrations ≥ ev.capacity then
      SafeRegResult.err ⟨"P0004", "Event has reached maximum capacity"⟩
    else
      match insertRegistration db uid eid now with
      | Except.error e => SafeRegResult.err e
      | Except.ok (db1, rid) => SafeRegResult.ok db1 rid now

/-- Outcome of `POST /api/events/:id/register`
(`eventController.registerForEvent`). -/
inductive RegisterOutcome
  | created (regId : Nat)
  | reactivated (regId : Nat)
  | alreadyRegistered
  | eventFull
  | eventPast
  | eventNotFound
  | internalError (msg : String)
deriving DecidableEq, Repr

/-- Source `UPDATE registrations SET status = st, registered_at = t WHERE id = rid`. -/
def updateRegStatus (db : DB) (rid : Nat) (st : RegStatus) (t : Int) : DB :=
  { db with
      registrations := db.registrations.map
        (fun r => if r.id = rid then { r with status := st, registeredAt := t } else r) }

/-- The controller's mapping of a `safe_event_registration` result to an HTTP
outcome: P0003 → 409 already registered, P0004 → 400 maximum capacity,
P0002 → 400 past event, any other error code → generic 500. -/
def mapSafeRegResult (db : DB) (res : SafeRegResult) : RegisterOutcome × DB :=
  match res with
  | SafeRegResult.ok db1 rid _ => (RegisterOutcome.created rid, db1)
  | SafeRegResult.err e =>
    if e.code = "P0003" then (RegisterOutcome.alreadyRegistered, db)
    else if e.code = "P0004" then (RegisterOutcome.eventFull, db)
    else if e.code = "P0002" then (RegisterOutcome.eventPast, db)
    else (RegisterOutcome.internalError e.msg, db)

/-- Source `eventController.registerForEvent`: look up the active event (404),
reject past events (400), reject a full event (400), then look at any
existing registration row for (user, event): confirmed → 409, cancelled →
reactivate it (UPDATE, firing the count trigger) with HTTP 200, otherwise
fall through to `safe_event_registration` (whose P0003 then reports the
waitlist row as already registered). -/
def registerForEvent (db : DB) (uid eid : Nat) (now : Int) : RegisterOutcome × DB :=
  match findActiveEvent db eid with
  | none => (RegisterOutcome.eventNotFound, db)
  | some ev =>
    if ev.dateTime ≤ now then (RegisterOutcome.eventPast, db)
    else if ev.currentRegistrations ≥ ev.capacity then (RegisterOutcome.eventFull, db)
    else
      match (regsFor db uid eid).head? with
      | some r =>
        if r.status = RegStatus.confirmed then (RegisterOutcome.alreadyRegistered, db)
        else if r.status = RegStatus.cancelled then
          let db1 := updateRegStatus db r.id RegStatus.confirmed now
          let db2 := setEventCount db1 r.eventId (confirmedRegCount db1 r.eventId)
          (RegisterOutcome.reactivated r.id, db2)
        else mapSafeRegResult db (safe_event_registration db uid eid now)
      | none => mapSafeRegResult db (safe_event_registration db uid eid now)

/-- Outcome of `DELETE /api/events/:id/register/:userId`
(`eventController.cancelRegistration`). -/
inductive CancelOutcome
  | cancelled
  | notRegistered
  | eventNotFound
  | eventPast
  | forbidden
  | internalError (msg : String)
deriving DecidableEq, Repr

/-- Source `safe_event_unregistration(p_user_id, p_event_id)`: under the advisory
lock it locks the active event row (P0001 when missing/inactive), rejects
past events (P0002) and a missing registration (P0005), and then *deletes*
the registration row; the AFTER DELETE count trigger recounts the event's
confirmed registrations. -/
def safe_event_unregistration (db : DB) (uid eid : Nat) (now : Int) :
    Except SqlErr DB :=
  match findActiveEvent db eid with
  | none => Except.error ⟨"P0001", "Event not found or inactive"⟩
  | some ev =>
    if ev.dateTime ≤ now then
      Except.error ⟨"P0002", "Cannot unregister from past events"⟩
    else if (regsFor db uid eid).isEmpty then
      Except.error ⟨"P0005", "User is not registered for this event"⟩
    else
      let db1 : DB :=
        { db with
            registrations := db.registrations.filter
              (fun r => !(r.userId == uid && r.eventId == eid)) }
      Except.ok (setEventCount db1 eid (confirmedRegCount db1 eid))

/-- Source `eventController.cancelRegistration`: actor must be the target user or an
admin; the event must exist, be active, and be in the future; then
`safe_event_unregistration` runs, P0005 mapping to 404 "Registration not
found" and P0002 to the past-event error. -/
def cancelRegistration (db : DB) (requestingUserId : Nat) (isAdmin : Bool)
    (targetUserId eid : Nat) (now : Int) : CancelOutcome × DB :=
  if targetUserId ≠ requestingUserId ∧ isAdmin = false then
    (CancelOutcome.forbidden, db)
  else
    match findActiveEvent db eid with
    | none => (CancelOutcome.eventNotFound, db)
    | some ev =>
      if ev.dateTime ≤ now then (CancelOutcome.eventPast, db)
      else
        match safe_event_unregistration db targetUserId eid now with
        | Except.ok db1 => (CancelOutcome.cancelled, db1)
        | Except.error e =>
          if e.code = "P0005" then (CancelOutcome.notRegistered, db)
          else if e.code = "P0002" then (CancelOutcome.eventPast, db)
          else (CancelOutcome.internalError e.msg, db)

/-- The count trigger firing once per affected row of a multi-row statement:
every event whose id is in `eids` gets its counter recomputed against the
post-statement registration table. -/
def recountEvents (db : DB) (eids : List Nat) : DB :=
  { db with
      events := db.events.map
        (fun e =>
          if eids.contains e.id then
            { e with currentRegistrations := confirmedRegCount db e.id }
          else e) }

/-- Source `DELETE FROM events WHERE id = eid`, with the `ON DELETE CASCADE` on
`registrations.event_id` and the AFTER DELETE count triggers of the
cascaded rows. -/
def cascadeDeleteEvent (db : DB) (eid : Nat) : DB :=
  let db1 : DB :=
    { db with
        events := db.events.filter (fun e => !(e.id == eid))
        registrations := db.registrations.filter (fun r => !(r.eventId == eid)) }
  recountEvents db1 [eid]

/-- Source `DELETE FROM users WHERE id = uid`: cascades to the user's registrations
(`registrations.user_id`) and owned events (`events.created_by`), the latter
cascading to their registrations; the AFTER DELETE count triggers then
recount every event that lost a registration row. -/
def cascadeDeleteUser (db : DB) (uid : Nat) : DB :=
  let ownedIds := (db.events.filter (fun e => e.createdBy == uid)).map Event.id
  let removed := db.registrations.filter
    (fun r => r.userId == uid || ownedIds.contains r.eventId)
  let db1 : DB :=
    { db with
        events := db.events.filter (fun e => !(e.createdBy == uid))
        registrations := db.registrations.filter
          (fun r => !(r.userId == uid || ownedIds.contains r.eventId)) }
  recountEvents db1 (removed.map Registration.eventId)

/-- The registration-mutating operations of the engine: Register (covering
the Created and Reactivated paths), Cancel, and the two cascade deletes. -/
inductive StoreOp
  | register (userId eventId : Nat) (now : Int)
  | cancel (actorId : Nat) (isAdmin : Bool) (targetUserId eventId : Nat) (now : Int)
  | deleteUserCascade (userId : Nat)
  | deleteEventCascade (eventId : Nat)

/-- The store state after one engine operation. -/
def applyStoreOp (db : DB) : StoreOp → DB
  | StoreOp.register u e now => (registerForEvent db u e now).2
  | StoreOp.cancel a adm t e now => (cancelRegistration db a adm t e now).2
  | StoreOp.deleteUserCascade u => cascadeDeleteUser db u
  | StoreOp.deleteEventCascade e => cascadeDeleteEvent db e

/-- The registration table state right after the `INSERT INTO registrations`
of a Register call (before the AFTER trigger writes the counter). -/
def dbAfterInsert (db : DB) (uid eid : Nat) (now : Int) : DB :=
  { db with
      registrations := db.registrations ++ [mkRegistration db uid eid now]
      nextRegId := db.nextRegId + 1 }

/-- The registration table state right after the `DELETE FROM registrations`
of a Cancel call (before the AFTER trigger writes the counter). -/
def dbAfterDelete (db : DB) (uid eid : Nat) : DB :=
  { db with
      registrations := db.registrations.filter
        (fun r => !(r.userId == uid && r.eventId == eid)) }

/-- The denormalized-counter invariant of the spec:
`e.current_registrations = |{ r : r.event_id = e.id ∧ r.status = confirmed }|`
for every event row. -/
def counterOK (db : DB) : Prop :=
  ∀ e ∈ db.events, e.currentRegistrations = confirmedRegCount db e.id

/-- Primary keys are unique: no two registration rows share an id. -/
def regIdsNodup (db : DB) : Prop :=
  (db.registrations.map Registration.id).Nodup

instance (db : DB) : Decidable (regIdsNodup db) := by
  unfold regIdsNodup; infer_instance

instance (db : DB) : Decidable (counterOK db) := by
  unfold counterOK; infer_instance

/-- Primary keys are unique: no two event rows share an id. -/
def eventIdsNodup (db : DB) : Prop :=
  (db.events.map Event.id).Nodup

instance (db : DB) : Decidable (eventIdsNodup db) := by
  unfold eventIdsNodup; infer_instance

/-! ### Event detail view (`eventController.getEventDetails`) -/

/-- Source `checkUserRegistration`: `SELECT 1 FROM registrations WHERE event_id = $1
AND user_id = $2 AND status = 'confirmed'`, non-empty result. -/
def checkUserRegistration (db : DB) (eid uid : Nat) : Bool :=
  !(db.registrations.filter
      (fun r => r.eventId == eid && r.userId == uid &&
        r.status == RegStatus.confirmed)).isEmpty

/-- Source `hasEventStarted`: `new Date(event.date_time) <= new Date()`. -/
def hasEventStarted (dateTime now : Int) : Bool :=
  decide (dateTime ≤ now)

/-- The derived fields of the `GET /api/events/:id` response. -/
structure EventView where
  availableSpots : Int
  isFull : Bool
  hasStarted : Bool
  canEdit : Bool
  canRegister : Bool
  isRegistered : Bool
deriving DecidableEq, Repr

/-- Source `eventController.getEventDetails`, restricted to the derived fields.
`viewer` is `req.user?.id` (optional authentication).  In the source
`can_register` is the JS expression
`requestingUserId && !isRegistered && !this.hasEventStarted(event.date_time)`;
user ids are SERIAL values >= 1, so the truthiness of `requestingUserId` is
`viewer.isSome`. -/
def getEventDetails (db : DB) (viewer : Option Nat) (eid : Nat) (now : Int) :
    Option EventView :=
  match findActiveEvent db eid with
  | none => none
  | some ev =>
    let isRegistered :=
      match viewer with
      | some u => checkUserRegistration db eid u
      | none => false
    some
      { availableSpots := (ev.capacity : Int) - (ev.currentRegistrations : Int)
        isFull := decide (ev.currentRegistrations ≥ ev.capacity)
        hasStarted := hasEventStarted ev.dateTime now
        canEdit := viewer == some ev.createdBy
        canRegister := viewer.isSome && !isRegistered && !hasEventStarted ev.dateTime now
        isRegistered := isRegistered }

/-- The `can_register` rule as the specification words it: viewer present,
not the owner, not already registered, event in the future, event not
full. -/
def canRegisterSpec (db : DB) (viewer : Option Nat) (ev : Event) (now : Int) : Bool :=
  viewer.isSome && !(viewer == some ev.createdBy) &&
    (match viewer with
     | some u => !checkUserRegistration db ev.id u
     | none => true) &&
    decide (now < ev.dateTime) &&
    decide (ev.currentRegistrations < ev.capacity)

/-! ### Statistics (`eventController.getEventStats`) -/

/-- The time-derived fields of the `GET /api/events/:id/stats` response. -/
structure StatsView where
  timeUntilEvent : Int
  isEventSoon : Bool
  capacityUsed : Nat
  capacityAvailable : Int
deriving DecidableEq, Repr

/-- Source `eventController.getEventStats`, restricted to the time-derived fields:
`timeUntilEvent = eventDate.getTime() - now.getTime()` and
`isEventSoon = timeUntilEvent < 24 * 60 * 60 * 1000`. -/
def getEventStats (db : DB) (eid : Nat) (now : Int) : Option StatsView :=
  match findActiveEvent db eid with
  | none => none
  | some ev =>
    let timeUntilEvent := ev.dateTime - now
    some
      { timeUntilEvent := timeUntilEvent
        isEventSoon := decide (timeUntilEvent < 24 * 60 * 60 * 1000)
        capacityUsed := ev.currentRegistrations
        capacityAvailable := (ev.capacity : Int) - (ev.currentRegistrations : Int) }

/-- Source `is_event_soon` as the specification words it:
`0 < time_until_event < 24h`. -/
def isEventSoonSpec (t : Int) : Bool :=
  decide (0 < t) && decide (t < 24 * 60 * 60 * 1000)

/-! ### Create-event validation (`eventValidation.validateCreateEvent`) -/

/-- The whitespace characters removed by the `.trim()` sanitizer. -/
def isJsSpace (c : Char) : Bool :=
  c == ' ' || c == '\t' || c == '\n' || c == '\r' || c == '\x0b' || c == '\x0c'

/-- The `.trim()` sanitizer of express-validator. -/
def jsTrim (s : String) : String :=
  ⟨((s.data.dropWhile isJsSpace).reverse.dropWhile isJsSpace).reverse⟩

/-- A character accepted by the title pattern `^[a-zA-Z0-9\s\-_.,!?()]+$`. -/
def isAllowedTitleChar (c : Char) : Bool :=
  c.isAlphanum || isJsSpace c || c == '-' || c == '_' || c == '.' ||
    c == ',' || c == '!' || c == '?' || c == '(' || c == ')'

/-- The payload of `POST /api/events` after JSON parsing. -/
structure EventDraft where
  title : String
  description : Option String
  dateTime : Int
  location : Option String
  capacity : Int
deriving Repr

/-- Source `body('title').trim().isLength({min:1,max:500}).matches(...)`. -/
def titleValid (t : String) : Bool :=
  let s := (jsTrim t).data
  decide (1 ≤ s.length) && decide (s.length ≤ 500) && s.all isAllowedTitleChar

/-- Source `body('description').optional().trim().isLength({max:10000})`. -/
def descriptionValid : Option String → Bool
  | none => true
  | some d => decide ((jsTrim d).data.length ≤ 10000)

/-- Source `body('date_time')` custom check: strictly more than 1 hour and at most
365 days in the future (times in milliseconds). -/
def dateTimeValid (dt now : Int) : Bool :=
  decide (now + 60 * 60 * 1000 < dt) &&
    decide (dt ≤ now + 365 * 24 * 60 * 60 * 1000)

/-- Source `body('location').optional().trim().isLength({max:500})`. -/
def locationValid : Option String → Bool
  | none => true
  | some l => decide ((jsTrim l).data.length ≤ 500)

/-- Source `body('capacity').isInt({min: 1, max: 1000})`. -/
def capacityValid (c : Int) : Bool :=
  decide (1 ≤ c) && decide (c ≤ 1000)

/-- Source `eventValidation.validateCreateEvent`: the full middleware chain. -/
def validateCreateEvent (d : EventDraft) (now : Int) : Bool :=
  titleValid d.title && descriptionValid d.description &&
    dateTimeValid d.dateTime now && locationValid d.location &&
    capacityValid d.capacity

/-- The `events_valid_capacity` CHECK constraint of the `events` table:
`capacity BETWEEN 1 AND 1000`. -/
def events_valid_capacity (c : Int) : Bool :=
  decide (1 ≤ c) && decide (c ≤ 1000)

/-! ### Upcoming events listing (`eventController.getUpcomingEvents`) -/

/-- Valid `sort_by` values per `validateUpcomingEventsQuery`. -/
inductive SortField
  | date_time
  | title
  | capacity
  | current_registrations
  | created_at
deriving DecidableEq, Repr

/-- Valid `sort_order` values per `validateUpcomingEventsQuery`. -/
inductive SortOrder
  | asc
  | desc
deriving DecidableEq, Repr

/-- Does the character list `hay` start with `pat`? -/
def charsStartWith : List Char → List Char → Bool
  | _, [] => true
  | [], _ :: _ => false
  | h :: t, p :: ps => h == p && charsStartWith t ps

/-- Does the character list `hay` contain `pat` as a contiguous run? -/
def charsContain : List Char → List Char → Bool
  | [], pat => pat.isEmpty
  | h :: t, pat => charsStartWith (h :: t) pat || charsContain t pat

/-- Source `e.location ILIKE '%pat%'`: case-insensitive substring; NULL never
matches. -/
def locationILike : Option String → String → Bool
  | none, _ => false
  | some l, pat => charsContain (l.data.map Char.toLower) (pat.data.map Char.toLower)

/-- The parsed query string of `GET /api/events/upcoming`.  The free-text
`search` condition (`to_tsvector @@ plainto_tsquery`) is abstracted as an
opaque predicate on the event row. -/
structure UpcomingQuery where
  page : Nat
  limit : Nat
  search : Option (Event → Bool)
  location : Option String
  minCapacity : Option Nat
  maxCapacity : Option Nat
  dateFrom : Option Int
  dateTo : Option Int
  sortBy : Option SortField
  sortOrder : Option SortOrder

/-- The dynamic WHERE clause of `getUpcomingEvents`: always
`is_active AND date_time > CURRENT_TIMESTAMP`, plus the optional filters. -/
def matchesUpcoming (q : UpcomingQuery) (now : Int) (e : Event) : Bool :=
  e.isActive && decide (now < e.dateTime) &&
    (match q.search with | none => true | some p => p e) &&
    (match q.location with | none => true | some loc => locationILike e.location loc) &&
    (match q.minCapacity with | none => true | some m => decide (m ≤ e.capacity)) &&
    (match q.maxCapacity with | none => true | some m => decide (e.capacity ≤ m)) &&
    (match q.dateFrom with | none => true | some t => decide (t ≤ e.dateTime)) &&
    (match q.dateTo with | none => true | some t => decide (e.dateTime ≤ t))

/-- Source `location ASC NULLS LAST` as a total order on optional locations. -/
def locLe : Option String → Option String → Bool
  | _, none => true
  | none, some _ => false
  | some a, some b => decide (a ≤ b)

/-- The fixed `ORDER BY e.date_time ASC, e.location ASC NULLS LAST` key of
the listing query. -/
def upcomingLe (a b : Event) : Bool :=
  decide (a.dateTime < b.dateTime) ||
    (decide (a.dateTime = b.dateTime) && locLe a.location b.location)

/-- The ORDER BY relation as a `Prop` for `List.insertionSort`. -/
def upcomingOrder (a b : Event) : Prop :=
  upcomingLe a b = true

instance : DecidableRel upcomingOrder := fun a b => by
  unfold upcomingOrder; infer_instance

/-- Source `eventController.getUpcomingEvents`: filter the active future events,
order by the fixed key (the validated `sort_by` / `sort_order` parameters
are never read by the controller), and paginate with
`LIMIT limit OFFSET (page - 1) * limit`. -/
def getUpcomingEvents (db : DB) (q : UpcomingQuery) (now : Int) : List Event :=
  let filtered := db.events.filter (matchesUpcoming q now)
  let sorted := filtered.insertionSort upcomingOrder
  (sorted.drop ((q.page - 1) * q.limit)).take q.limit

instance : IsTotal Event upcomingOrder := by
  constructor
  intro a b
  simp only [upcomingOrder, upcomingLe, Bool.or_eq_true, Bool.and_eq_true,
    decide_eq_true_eq]
  rcases lt_trichotomy a.dateTime b.dateTime with h | h | h
  · exact Or.inl (Or.inl h)
  · cases ha : a.location with
    | none =>
      cases hb : b.location with
      | none => exact Or.inl (Or.inr ⟨h, by simp [locLe]⟩)
      | some s2 => exact Or.inr (Or.inr ⟨h.symm, by simp [locLe]⟩)
    | some s1 =>
      cases hb : b.location with
      | none => exact Or.inl (Or.inr ⟨h, by simp [locLe]⟩)
      | some s2 =>
        rcases le_total s1 s2 with hle | hle
        · exact Or.inl (Or.inr ⟨h, by simp [locLe, hle]⟩)
        · exact Or.inr (Or.inr ⟨h.symm, by simp [locLe, hle]⟩)
  · exact Or.inr (Or.inl h)

instance : IsTrans Event upcomingOrder := by
  constructor
  intro a b c hab hbc
  simp only [upcomingOrder, upcomingLe, Bool.or_eq_true, Bool.and_eq_true,
    decide_eq_true_eq] at hab hbc ⊢
  rcases hab with h1 | ⟨h1, l1⟩
  · rcases hbc with h2 | ⟨h2, l2⟩
    · exact Or.inl (h1.trans h2)
    · exact Or.inl (h2 ▸ h1)
  · rcases hbc with h2 | ⟨h2, l2⟩
    · exact Or.inl (h1 ▸ h2)
    · refine Or.inr ⟨h1.trans h2, ?_⟩
      cases la : a.location with
      | none =>
        cases lb : b.location with
        | none => rw [lb] at l2; exact l2
        | some s2 => rw [la, lb] at l1; simp [locLe] at l1
      | some s1 =>
        cases lc : c.location with
        | none => simp [locLe]
        | some s3 =>
          cases lb : b.location with
          | none => rw [lb, lc] at l2; simp [locLe] at l2
          | some s2 =>
            rw [la, lb] at l1
            rw [lb, lc] at l2
            simp only [locLe, decide_eq_true_eq] at l1 l2
            simp only [locLe, decide_eq_true_eq]
            exact le_trans l1 l2

/-! ### Concrete databases used as witnesses and counterexamples -/

/-- A future event of capacity 1 with no registrations. -/
def dbCap1 : DB := ⟨[⟨1, "Solo Session", 1000000, none, 1, 0, 9, true, 0⟩], [], 1⟩

/-- A future event of capacity 5 with no registrations, owned by user 9. -/
def dbCap5 : DB := ⟨[⟨1, "Workshop", 1000000, none, 5, 0, 9, true, 0⟩], [], 1⟩

/-- A future event of capacity 5 with a cancelled registration row of
user 2. -/
def dbCancelledRow : DB :=
  ⟨[⟨1, "Workshop", 1000000, none, 5, 0, 9, true, 0⟩],
   [⟨4, 2, 1, 0, RegStatus.cancelled⟩], 5⟩

/-- An active event whose `date_time` has already passed. -/
def dbPast : DB := ⟨[⟨1, "Past Event", 0, none, 5, 0, 9, true, 0⟩], [], 1⟩

/-- Two active future events: id 1 (date 100, capacity 5) and id 2
(date 200, capacity 9). -/
def dbSort : DB :=
  ⟨[⟨1, "A", 100, none, 5, 0, 9, true, 0⟩,
    ⟨2, "B", 200, none, 9, 0, 9, true, 0⟩], [], 1⟩

/-- Source `GET /api/events/upcoming?sort_by=capacity&sort_order=DESC`, first page. -/
def qCapacityDesc : UpcomingQuery :=
  ⟨1, 10, none, none, none, none, none, none,
   some SortField.capacity, some SortOrder.desc⟩

/-- A create-event payload that passes every validator except possibly the
capacity rule, parameterized by the requested capacity. -/
def draftWithCapacity (c : Int) : EventDraft :=
  ⟨"Team Meeting", none, 10000000, none, c⟩

/-! ## Shared lemmas -/

theorem confirmedRegCount_setEventCount (db : DB) (a b x : Nat) :
    confirmedRegCount (setEventCount db a b) x = confirmedRegCount db x := rfl

theorem confirmedRegCount_congr (db db' : DB)
    (h : db.registrations = db'.registrations) (x : Nat) :
    confirmedRegCount db x = confirmedRegCount db' x := by
  simp [confirmedRegCount, confirmedInList, h]

/-- The inserted confirmed row raises the (recomputed) confirmed count of
its own event by one. -/
theorem confirmedRegCount_dbAfterInsert_self (db : DB) (u e : Nat) (now : Int) :
    confirmedRegCount (dbAfterInsert db u e now) e = confirmedRegCount db e + 1 := by
  simp [confirmedRegCount, confirmedInList, dbAfterInsert, mkRegistration, List.filter_append]

/-- The inserted row does not change the confirmed count of other events. -/
theorem confirmedRegCount_dbAfterInsert_ne (db : DB) (u e x : Nat) (now : Int)
    (hx : x ≠ e) :
    confirmedRegCount (dbAfterInsert db u e now) x = confirmedRegCount db x := by
  have h1 : ((e : Nat) == x) = false := by simp [Ne.symm hx]
  simp [confirmedRegCount, confirmedInList, dbAfterInsert, mkRegistration, List.filter_append, h1]

/-- Deleting the rows of (user, event) does not change the confirmed count
of other events. -/
theorem confirmedRegCount_dbAfterDelete_ne (db : DB) (u e x : Nat) (hx : x ≠ e) :
    confirmedRegCount (dbAfterDelete db u e) x = confirmedRegCount db x := by
  unfold confirmedRegCount confirmedInList dbAfterDelete
  rw [List.filter_filter]
  apply congrArg List.length
  apply List.filter_congr
  intro y hy
  by_cases hye : y.eventId = e
  · have h1 : (y.eventId == x) = false := by simp [hye, Ne.symm hx]
    simp [h1]
  · have h2 : (y.eventId == e) = false := by simp [hye]
    simp [h2]

/-- Updating the status of row `r` (rows are keyed by unique ids) does not
change the confirmed count of events other than `r`'s. -/
theorem confirmedRegCount_updateRegStatus_ne (db : DB) (r : Registration)
    (st : RegStatus) (t : Int) (x : Nat)
    (hr : r ∈ db.registrations) (hnd : regIdsNodup db) (hx : x ≠ r.eventId) :
    confirmedRegCount (updateRegStatus db r.id st t) x = confirmedRegCount db x := by
  unfold confirmedRegCount confirmedInList updateRegStatus
  rw [List.filter_map, List.length_map]
  apply congrArg List.length
  apply List.filter_congr
  intro y hy
  by_cases hid : y.id = r.id
  · have hyr : y = r := List.inj_on_of_nodup_map hnd hy hr hid
    subst hyr
    have h1 : (y.eventId == x) = false := by simp [Ne.symm hx]
    simp [Function.comp, h1]
  · simp [Function.comp, hid]

/-- With unique event ids, the trigger's unfiltered `SELECT ... WHERE id = e`
returns the same row as the active lookup. -/
theorem findEventById_of_findActiveEvent (db : DB) (e : Nat) (ev : Event)
    (hnd : eventIdsNodup db) (hf : findActiveEvent db e = some ev) :
    findEventById db e = some ev := by
  have hf' : db.events.find? (fun x => x.id == e && x.isActive) = some ev := hf
  have hmem : ev ∈ db.events := List.mem_of_find?_eq_some hf'
  have hp := List.find?_some hf'
  have hid : ev.id = e := by
    have := (Bool.and_eq_true _ _).mp hp
    exact beq_iff_eq.mp this.1
  have hsome : (findEventById db e).isSome = true := by
    unfold findEventById
    rw [List.find?_isSome]
    exact ⟨ev, hmem, by simp [hid]⟩
  obtain ⟨x, hx⟩ := Option.isSome_iff_exists.mp hsome
  have hx' : db.events.find? (fun y => y.id == e) = some x := hx
  have hxm : x ∈ db.events := List.mem_of_find?_eq_some hx'
  have hxp := List.find?_some hx'
  have hxid : x.id = e := beq_iff_eq.mp hxp
  have : x = ev := List.inj_on_of_nodup_map hnd hxm hmem (by rw [hxid, hid])
  rw [hx, this]

/-- Mapping the lookup predicate through the counter update: the active
lookup after `setEventCount` returns the same row with the counter field
rewritten. -/
theorem findActiveEvent_setEventCount (db : DB) (eid cnt e : Nat) :
    findActiveEvent (setEventCount db eid cnt) e =
      (findActiveEvent db e).map
        (fun ev =>
          if ev.id = eid then { ev with currentRegistrations := cnt } else ev) := by
  unfold findActiveEvent setEventCount
  have hpred :
      ((fun ev' : Event => ev'.id == e && ev'.isActive) ∘
        (fun ev' : Event =>
          if ev'.id = eid then { ev' with currentRegistrations := cnt } else ev')) =
      (fun ev' : Event => ev'.id == e && ev'.isActive) := by
    funext x
    by_cases hx : x.id = eid <;> simp [Function.comp, hx]
  rw [List.find?_map, hpred]

/-- The deleted pair has no rows left after `dbAfterDelete`. -/
theorem regsFor_dbAfterDelete_self (db : DB) (u e : Nat) :
    regsFor (dbAfterDelete db u e) u e = [] := by
  unfold regsFor dbAfterDelete
  rw [List.filter_filter, List.filter_eq_nil_iff]
  intro y hy
  by_cases h1 : y.userId = u <;> by_cases h2 : y.eventId = e <;> simp [h1, h2]

/-- Source `regsFor` after appending the freshly inserted row for the same pair. -/
theorem regsFor_dbAfterInsert_self (db : DB) (u e : Nat) (now : Int)
    (h : regsFor db u e = []) :
    regsFor (dbAfterInsert db u e now) u e = [mkRegistration db u e now] := by
  unfold regsFor dbAfterInsert
  rw [List.filter_append]
  unfold regsFor at h
  rw [h]
  simp [mkRegistration]

/-- A Register call's HTTP mapping yields Created only from the success
result of `safe_event_registration`. -/
theorem mapSafeRegResult_created_elim (db : DB) (res : SafeRegResult) (i : Nat)
    (db1 : DB) (h : mapSafeRegResult db res = (RegisterOutcome.created i, db1)) :
    ∃ t, res = SafeRegResult.ok db1 i t := by
  cases res with
  | ok d r t =>
    simp only [mapSafeRegResult, Prod.mk.injEq, RegisterOutcome.created.injEq] at h
    exact ⟨t, by rw [h.1, h.2]⟩
  | err e =>
    simp only [mapSafeRegResult] at h
    split_ifs at h <;> simp at h

/-- The HTTP mapping of a safe-registration result never reports
Reactivated; that outcome arises only from the controller's cancelled-row
branch. -/
theorem mapSafeRegResult_fst_ne_reactivated (db : DB) (res : SafeRegResult)
    (i : Nat) : (mapSafeRegResult db res).1 ≠ RegisterOutcome.reactivated i := by
  cases res with
  | ok d r t => simp [mapSafeRegResult]
  | err e =>
    simp only [mapSafeRegResult]
    split_ifs <;> simp

/-- A `validate_event_registration` pass means the event exists, is active,
and lies in the future. -/
theorem validate_event_registration_none_elim (db : DB) (e : Nat) (now : Int)
    (h : validate_event_registration db e now = none) :
    ∃ ev, findEventById db e = some ev ∧ ev.isActive = true ∧
      ¬ ev.dateTime ≤ now := by
  unfold validate_event_registration at h
  split at h
  · cases h
  · rename_i ev hfid
    split at h
    · cases h
    · rename_i hact
      split at h
      · cases h
      · rename_i hpast
        exact ⟨ev, hfid, by simpa using hact, hpast⟩

/-- Characterization of a count trigger that let an INSERT commit. -/
theorem update_count_ins_ok_elim (db : DB) (e : Nat) (db2 : DB)
    (h : update_event_registration_count_ins db e = Except.ok db2) :
    db2 = setEventCount db e (confirmedRegCount db e) ∧
    ∀ ev2, findEventById db e = some ev2 → confirmedRegCount db e < ev2.capacity := by
  unfold update_event_registration_count_ins at h
  simp only [] at h
  split at h
  · rename_i hfid
    simp only [Except.ok.injEq] at h
    exact ⟨h.symm, fun ev2 h2 => by rw [hfid] at h2; cases h2⟩
  · rename_i ev2 hfid
    split at h
    · cases h
    · rename_i hlt
      simp only [Except.ok.injEq] at h
      refine ⟨h.symm, fun ev2' h2' => ?_⟩
      rw [hfid] at h2'
      cases h2'
      omega

/-- Characterization of a committed `INSERT INTO registrations`. -/
theorem insertRegistration_ok_elim (db : DB) (u e : Nat) (now : Int)
    (db1 : DB) (rid : Nat)
    (h : insertRegistration db u e now = Except.ok (db1, rid)) :
    regsFor db u e = [] ∧ rid = db.nextRegId ∧
    db1 = setEventCount (dbAfterInsert db u e now) e (confirmedRegCount db e + 1) ∧
    (∃ ev2, findEventById db e = some ev2 ∧
      confirmedRegCount db e + 1 < ev2.capacity) := by
  unfold insertRegistration at h
  split at h
  · cases h
  · rename_i hval
    split at h
    · cases h
    · rename_i hie
      have hreg : regsFor db u e = [] := by
        cases hie2 : (regsFor db u e).isEmpty with
        | true => exact List.isEmpty_iff.mp hie2
        | false => exact absurd hie2 hie
      simp only [] at h
      split at h
      · cases h
      · rename_i db2 htrig
        simp only [Except.ok.injEq, Prod.mk.injEq] at h
        obtain ⟨hdb, hrid⟩ := h
        have htrig' :
            update_event_registration_count_ins (dbAfterInsert db u e now) e =
              Except.ok db2 := htrig
        obtain ⟨hdb2, hcap⟩ := update_count_ins_ok_elim _ _ _ htrig'
        have hsame : findEventById (dbAfterInsert db u e now) e =
            findEventById db e := rfl
        have hcnt : confirmedRegCount (dbAfterInsert db u e now) e =
            confirmedRegCount db e + 1 :=
          confirmedRegCount_dbAfterInsert_self db u e now
        obtain ⟨ev0, hfid0, _, _⟩ := validate_event_registration_none_elim db e now hval
        refine ⟨hreg, hrid.symm, ?_, ⟨ev0, hfid0, ?_⟩⟩
        · rw [← hdb, hdb2, hcnt]
        · have := hcap ev0 (by rw [hsame, hfid0])
          omega

/-- Characterization of a successful `safe_event_registration`: the event
was found active, future, with a free seat; the pair had no row; the insert
passed the count trigger; and the resulting store is the inserted row plus
the recounted counter. -/
theorem safe_event_registration_ok_elim (db : DB) (u e : Nat) (now t : Int)
    (db' : DB) (rid : Nat)
    (h : safe_event_registration db u e now = SafeRegResult.ok db' rid t) :
    regsFor db u e = [] ∧ rid = db.nextRegId ∧ t = now ∧
    db' = setEventCount (dbAfterInsert db u e now) e (confirmedRegCount db e + 1) ∧
    (∃ ev, findActiveEvent db e = some ev ∧ ¬ ev.dateTime ≤ now ∧
      ev.currentRegistrations < ev.capacity) ∧
    (∃ ev2, findEventById db e = some ev2 ∧
      confirmedRegCount db e + 1 < ev2.capacity) := by
  unfold safe_event_registration at h
  split at h
  · cases h
  · rename_i ev hf
    split at h
    · cases h
    · rename_i hpast
      split at h
      · cases h
      · rename_i hie
        split at h
        · cases h
        · rename_i hcap
          split at h
          · cases h
          · rename_i db1 rid1 hins
            simp only [SafeRegResult.ok.injEq] at h
            obtain ⟨hdb, hrid, ht⟩ := h
            obtain ⟨hreg, hrid1, hdb1, hev2⟩ :=
              insertRegistration_ok_elim db u e now db1 rid1 hins
            subst hdb hrid ht
            exact ⟨hreg, hrid1, rfl, hdb1, ⟨ev, hf, hpast, by omega⟩, hev2⟩

/-- Characterization of a Register call that returned Created. -/
theorem registerForEvent_created_elim (db : DB) (u e : Nat) (now : Int)
    (i : Nat) (db1 : DB)
    (h : registerForEvent db u e now = (RegisterOutcome.created i, db1)) :
    regsFor db u e = [] ∧ i = db.nextRegId ∧
    db1 = setEventCount (dbAfterInsert db u e now) e (confirmedRegCount db e + 1) ∧
    (∃ ev, findActiveEvent db e = some ev ∧ ¬ ev.dateTime ≤ now ∧
      ev.currentRegistrations < ev.capacity) ∧
    (∃ ev2, findEventById db e = some ev2 ∧
      confirmedRegCount db e + 1 < ev2.capacity) := by
  unfold registerForEvent at h
  split at h
  · cases h
  · rename_i ev hf
    split at h
    · cases h
    · rename_i hpast
      split at h
      · cases h
      · rename_i hcap
        split at h
        · rename_i r hh
          split at h
          · cases h
          · split at h
            · cases h
            · obtain ⟨t, hok⟩ := mapSafeRegResult_created_elim _ _ _ _ h
              obtain ⟨h1, h2, h3, h4, h5, h6⟩ :=
                safe_event_registration_ok_elim db u e now t db1 i hok
              exact ⟨h1, h2, h4, h5, h6⟩
        · rename_i hh
          obtain ⟨t, hok⟩ := mapSafeRegResult_created_elim _ _ _ _ h
          obtain ⟨h1, h2, h3, h4, h5, h6⟩ :=
            safe_event_registration_ok_elim db u e now t db1 i hok
          exact ⟨h1, h2, h4, h5, h6⟩

/-- Characterization of a successful `safe_event_unregistration`: the
event was found active and future, the pair had at least one row, and the
result deletes those rows and recounts the counter. -/
theorem safe_event_unregistration_ok_elim (db : DB) (u e : Nat) (now : Int)
    (db' : DB)
    (h : safe_event_unregistration db u e now = Except.ok db') :
    (∃ ev, findActiveEvent db e = some ev ∧ ¬ ev.dateTime ≤ now) ∧
    regsFor db u e ≠ [] ∧
    db' = setEventCount (dbAfterDelete db u e) e
      (confirmedRegCount (dbAfterDelete db u e) e) := by
  unfold safe_event_unregistration at h
  split at h
  · cases h
  · rename_i ev hf
    split at h
    · cases h
    · rename_i hpast
      split at h
      · cases h
      · rename_i hie
        simp only [Except.ok.injEq] at h
        refine ⟨⟨ev, hf, hpast⟩, ?_, h.symm⟩
        intro hnil
        exact hie (by rw [hnil]; rfl)

/-- Characterization of a Cancel call that returned Cancelled. -/
theorem cancelRegistration_cancelled_elim (db : DB) (a : Nat) (adm : Bool)
    (t e : Nat) (now : Int) (db' : DB)
    (h : cancelRegistration db a adm t e now = (CancelOutcome.cancelled, db')) :
    (t = a ∨ adm = true) ∧
    safe_event_unregistration db t e now = Except.ok db' := by
  unfold cancelRegistration at h
  split at h
  · cases h
  · rename_i hperm
    have hperm' : t = a ∨ adm = true := by
      by_cases h1 : t = a
      · exact Or.inl h1
      · right
        cases h2 : adm with
        | true => rfl
        | false => exact absurd ⟨h1, h2⟩ hperm
    split at h
    · cases h
    · rename_i ev hf
      split at h
      · cases h
      · rename_i hpast
        split at h
        · rename_i db1 hu
          simp only [Prod.mk.injEq] at h
          exact ⟨hperm', by rw [← h.2]; exact hu⟩
        · rename_i err hu
          split_ifs at h <;> cases h

/-- Filtering rows with a predicate that keeps every row of event `x`
does not change `x`'s confirmed count. -/
theorem confirmedInList_filter_stable (l : List Registration)
    (q : Registration → Bool) (x : Nat)
    (h : ∀ r ∈ l, r.eventId = x → q r = true) :
    confirmedInList (l.filter q) x = confirmedInList l x := by
  unfold confirmedInList
  rw [List.filter_filter]
  apply congrArg List.length
  apply List.filter_congr
  intro y hy
  by_cases hye : y.eventId = x
  · simp [h y hy hye]
  · have : (y.eventId == x) = false := by simp [hye]
    simp [this]

/-- Writing the recomputed count of `eid` yields a `counterOK` store as
soon as every *other* event's counter was already correct. -/
theorem counterOK_setCount (db : DB) (eid : Nat)
    (h : ∀ e' ∈ db.events, e'.id ≠ eid →
      e'.currentRegistrations = confirmedRegCount db e'.id) :
    counterOK (setEventCount db eid (confirmedRegCount db eid)) := by
  intro e' he'
  rw [confirmedRegCount_setEventCount]
  simp only [setEventCount, List.mem_map] at he'
  obtain ⟨e0, he0, hmap⟩ := he'
  by_cases h0 : e0.id = eid
  · rw [← hmap]
    simp only [h0, if_true]
  · rw [← hmap]
    simp only [h0, if_false]
    exact h e0 he0 h0

/-- Recounting the counters of the listed events yields a `counterOK`
store as soon as every unlisted event's counter was already correct. -/
theorem counterOK_recountEvents (db : DB) (l : List Nat)
    (h : ∀ e' ∈ db.events, e'.id ∉ l →
      e'.currentRegistrations = confirmedRegCount db e'.id) :
    counterOK (recountEvents db l) := by
  intro e' he'
  have hcnt : confirmedRegCount (recountEvents db l) e'.id =
      confirmedRegCount db e'.id := rfl
  rw [hcnt]
  simp only [recountEvents, List.mem_map] at he'
  obtain ⟨e0, he0, hmap⟩ := he'
  by_cases h0 : l.contains e0.id = true
  · rw [← hmap]
    simp only [h0, if_true]
  · rw [← hmap]
    simp only [h0, if_false]
    exact h e0 he0 (fun hm => h0 (List.elem_iff.mpr hm))

/-- The store produced by a committed registration INSERT satisfies the
counter invariant. -/
theorem counterOK_insertedShape (db : DB) (u e : Nat) (now : Int)
    (hok : counterOK db) :
    counterOK (setEventCount (dbAfterInsert db u e now) e
      (confirmedRegCount db e + 1)) := by
  have hrw : confirmedRegCount db e + 1 =
      confirmedRegCount (dbAfterInsert db u e now) e :=
    (confirmedRegCount_dbAfterInsert_self db u e now).symm
  rw [hrw]
  apply counterOK_setCount
  intro e' he' hne
  have he'' : e' ∈ db.events := he'
  rw [confirmedRegCount_dbAfterInsert_ne db u e e'.id now hne]
  exact hok e' he''

/-- The store produced by a committed registration DELETE satisfies the
counter invariant. -/
theorem counterOK_deletedShape (db : DB) (u e : Nat) (hok : counterOK db) :
    counterOK (setEventCount (dbAfterDelete db u e) e
      (confirmedRegCount (dbAfterDelete db u e) e)) := by
  apply counterOK_setCount
  intro e' he' hne
  have he'' : e' ∈ db.events := he'
  rw [confirmedRegCount_dbAfterDelete_ne db u e e'.id hne]
  exact hok e' he''

/-- The store produced by the reactivation UPDATE plus its count trigger
satisfies the counter invariant. -/
theorem counterOK_reactivate (db : DB) (u e : Nat) (now : Int)
    (r : Registration) (hh : (regsFor db u e).head? = some r)
    (hnd : regIdsNodup db) (hok : counterOK db) :
    counterOK (setEventCount (updateRegStatus db r.id RegStatus.confirmed now)
      r.eventId
      (confirmedRegCount (updateRegStatus db r.id RegStatus.confirmed now)
        r.eventId)) := by
  have hr : r ∈ db.registrations := by
    have hmem : r ∈ regsFor db u e := by
      obtain ⟨ys, hys⟩ := List.head?_eq_some_iff.mp hh
      rw [hys]
      exact List.mem_cons_self _ _
    exact (List.mem_filter.mp hmem).1
  apply counterOK_setCount
  intro e' he' hne
  have he'' : e' ∈ db.events := he'
  rw [confirmedRegCount_updateRegStatus_ne db r RegStatus.confirmed now e'.id hr hnd hne]
  exact hok e' he''

/-- Any result of the HTTP mapping keeps the invariant, provided the safe
function's success state does. -/
theorem counterOK_mapSafe (db : DB) (res : SafeRegResult) (hok : counterOK db)
    (hres : ∀ db' rid t, res = SafeRegResult.ok db' rid t → counterOK db') :
    counterOK (mapSafeRegResult db res).2 := by
  cases res with
  | ok d r t => exact hres d r t rfl
  | err e =>
    simp only [mapSafeRegResult]
    split_ifs <;> exact hok

/-- Register preserves the counter invariant on every outcome path. -/
theorem counterOK_registerForEvent (db : DB) (u e : Nat) (now : Int)
    (hnd : regIdsNodup db) (hok : counterOK db) :
    counterOK (registerForEvent db u e now).2 := by
  have hsafe : ∀ db' rid t,
      safe_event_registration db u e now = SafeRegResult.ok db' rid t →
      counterOK db' := by
    intro db' rid t hs
    obtain ⟨_, _, _, hdb, _, _⟩ :=
      safe_event_registration_ok_elim db u e now t db' rid hs
    rw [hdb]
    exact counterOK_insertedShape db u e now hok
  unfold registerForEvent
  split
  · exact hok
  · rename_i ev hf
    split
    · exact hok
    · split
      · exact hok
      · split
        · rename_i r hh
          split
          · exact hok
          · split
            · exact counterOK_reactivate db u e now r hh hnd hok
            · exact counterOK_mapSafe db _ hok hsafe
        · exact counterOK_mapSafe db _ hok hsafe

/-- Cancel preserves the counter invariant on every outcome path. -/
theorem counterOK_cancelRegistration (db : DB) (a : Nat) (adm : Bool)
    (t e : Nat) (now : Int) (hok : counterOK db) :
    counterOK (cancelRegistration db a adm t e now).2 := by
  unfold cancelRegistration
  split
  · exact hok
  · split
    · exact hok
    · rename_i ev hf
      split
      · exact hok
      · split
        · rename_i db1 hu
          obtain ⟨_, _, hdb⟩ :=
            safe_event_unregistration_ok_elim db t e now db1 hu
          have : counterOK db1 := by
            rw [hdb]
            exact counterOK_deletedShape db t e hok
          exact this
        · rename_i err hu
          split_ifs <;> exact hok

/-- Event cascade delete preserves the counter invariant. -/
theorem counterOK_cascadeDeleteEvent (db : DB) (e : Nat) (hok : counterOK db) :
    counterOK (cascadeDeleteEvent db e) := by
  unfold cascadeDeleteEvent
  apply counterOK_recountEvents
  intro e' he' hnl
  have hmem := List.mem_filter.mp he'
  have hne : e'.id ≠ e := by simpa using hmem.2
  have h1 : confirmedInList
      (db.registrations.filter (fun r => !(r.eventId == e))) e'.id =
      confirmedInList db.registrations e'.id := by
    apply confirmedInList_filter_stable
    intro r hr hre
    have : (r.eventId == e) = false := by
      rw [hre]
      simp [hne]
    simp [this]
  have h2 : confirmedRegCount
      { db with
          events := db.events.filter (fun x => !(x.id == e))
          registrations := db.registrations.filter (fun r => !(r.eventId == e)) }
      e'.id = confirmedRegCount db e'.id := h1
  rw [h2]
  exact hok e' hmem.1

/-- User cascade delete (registrations and owned events, with their
registrations, removed; affected counters recounted) preserves the counter
invariant. -/
theorem counterOK_cascadeDeleteUser (db : DB) (u : Nat) (hok : counterOK db) :
    counterOK (cascadeDeleteUser db u) := by
  unfold cascadeDeleteUser
  apply counterOK_recountEvents
  intro e' he' hnl
  have hmem := List.mem_filter.mp he'
  have h1 : confirmedInList
      (db.registrations.filter
        (fun r => !(r.userId == u ||
          ((db.events.filter (fun ev => ev.createdBy == u)).map Event.id).contains
            r.eventId))) e'.id =
      confirmedInList db.registrations e'.id := by
    apply confirmedInList_filter_stable
    intro r hr hre
    by_contra hq
    have hc : (r.userId == u ||
        ((db.events.filter (fun ev => ev.createdBy == u)).map Event.id).contains
          r.eventId) = true := by
      revert hq
      cases r.userId == u ||
          ((db.events.filter (fun ev => ev.createdBy == u)).map Event.id).contains
            r.eventId <;> simp
    have hrem : r ∈ db.registrations.filter
        (fun r' => r'.userId == u ||
          ((db.events.filter (fun ev => ev.createdBy == u)).map Event.id).contains
            r'.eventId) :=
      List.mem_filter.mpr ⟨hr, hc⟩
    have hin : r.eventId ∈
        (db.registrations.filter
          (fun r' => r'.userId == u ||
            ((db.events.filter (fun ev => ev.createdBy == u)).map Event.id).contains
              r'.eventId)).map Registration.eventId :=
      List.mem_map_of_mem _ hrem
    rw [hre] at hin
    exact hnl hin
  have h2 : confirmedRegCount
      { db with
          events := db.events.filter (fun ev => !(ev.createdBy == u))
          registrations := db.registrations.filter
            (fun r => !(r.userId == u ||
              ((db.events.filter (fun ev => ev.createdBy == u)).map Event.id).contains
                r.eventId)) } e'.id = confirmedRegCount db e'.id := h1
  rw [h2]
  exact hok e' hmem.1

/-!
 ## C1 — the denormalized counter always equals the confirmed count
-/

/-- C1: in a committed state (unique registration ids, counters correct),
every engine operation that inserts, updates, or deletes registrations —
Register (Created or Reactivated), Cancel, user cascade delete, event
cascade delete — leaves every event's `current_registrations` equal to the
number of its confirmed registration rows. -/
theorem registration_counter_invariant (db : DB) (op : StoreOp)
    (hnd : regIdsNodup db) (hok : counterOK db) :
    counterOK (applyStoreOp db op) := by
  cases op with
  | register u e now => exact counterOK_registerForEvent db u e now hnd hok
  | cancel a adm t e now => exact counterOK_cancelRegistration db a adm t e now hok
  | deleteUserCascade u => exact counterOK_cascadeDeleteUser db u hok
  | deleteEventCascade e => exact counterOK_cascadeDeleteEvent db e hok

/-- C1 witness: a Register call on the concrete capacity-5 store. -/
theorem registration_counter_invariant_witness :
    counterOK (applyStoreOp dbCap5 (StoreOp.register 2 1 0)) :=
  registration_counter_invariant dbCap5 (StoreOp.register 2 1 0)
    (by decide) (by decide)

/-- Facts carried by a successful active-event lookup. -/
theorem findActiveEvent_some_facts (db : DB) (e : Nat) (ev : Event)
    (hf : findActiveEvent db e = some ev) :
    ev ∈ db.events ∧ ev.id = e ∧ ev.isActive = true := by
  have hf' : db.events.find? (fun x => x.id == e && x.isActive) = some ev := hf
  have hmem : ev ∈ db.events := List.mem_of_find?_eq_some hf'
  have hp := List.find?_some hf'
  have hsplit := (Bool.and_eq_true _ _).mp hp
  exact ⟨hmem, beq_iff_eq.mp hsplit.1, hsplit.2⟩

/-- Counter updates do not touch the registration rows. -/
theorem regsFor_setEventCount (db : DB) (eid cnt u e : Nat) :
    regsFor (setEventCount db eid cnt) u e = regsFor db u e := rfl

/-- A row of the updated events table that carries the updated id carries
the updated counter. -/
theorem setEventCount_lookup (db : DB) (eid cnt : Nat) (x : Event)
    (hx : x ∈ (setEventCount db eid cnt).events) (hid : x.id = eid) :
    x.currentRegistrations = cnt := by
  simp only [setEventCount, List.mem_map] at hx
  obtain ⟨x0, hx0, hmap⟩ := hx
  by_cases h0 : x0.id = eid
  · rw [← hmap]
    simp [h0]
  · rw [← hmap] at hid
    simp only [h0, if_false] at hid

/-- Images of event rows under a counter update stay in the table. -/
theorem mem_setEventCount_of_mem (db : DB) (eid cnt : Nat) (x : Event)
    (hx : x ∈ db.events) :
    (if x.id = eid then { x with currentRegistrations := cnt } else x) ∈
      (setEventCount db eid cnt).events :=
  List.mem_map_of_mem _ hx

/-!
 ## C2 — concurrent registration fills exactly `min(N, C)` seats

The claim (and the repository's own tests, `tests/*` "should handle capacity
of 1 (minimum capacity)" and "should handle event at exact capacity", which
expect HTTP 201 for every registration up to capacity) requires that a
single Register on an empty capacity-1 event succeeds.  The
`update_event_registration_count` AFTER INSERT trigger, however, recounts
the confirmed rows *including the row just inserted* and raises whenever
`current_count >= event_capacity`, so the registration that would fill the
last seat always aborts: at most `capacity - 1` registrations can ever
succeed, and the failing call surfaces SQLSTATE P0001, which
`registerForEvent` maps to a generic 500, not to the capacity error. -/

/-- C2: evaluating the code at the failing input: on an empty future event
of capacity 1, the single (trivially concurrent, N = 1) Register call fails
with the trigger's capacity exception and leaves the store unchanged,
although `min(N, C) = 1` successes are required by the claim. -/
theorem register_capacity_trigger_off_by_one :
    registerForEvent dbCap1 2 1 0 =
      (RegisterOutcome.internalError "Event has reached maximum capacity of 1",
        dbCap1) ∧
    confirmedRegCount dbCap1 1 = 0 := by
  decide

/-!
 ## C3 — registering for a past event returns EventPast and changes nothing
-/

/-- C3: if the active event addressed by a Register call satisfies
`date_time ≤ now`, the call returns EventPast and the store — registration
rows and counters — is unchanged. -/
theorem register_past_event (db : DB) (u e : Nat) (now : Int) (ev : Event)
    (hfind : findActiveEvent db e = some ev) (hpast : ev.dateTime ≤ now) :
    registerForEvent db u e now = (RegisterOutcome.eventPast, db) := by
  unfold registerForEvent
  rw [hfind]
  simp [hpast]

/-- C3 witness: a concrete past event. -/
theorem register_past_event_witness :
    registerForEvent dbCap5 2 1 2000000 = (RegisterOutcome.eventPast, dbCap5) :=
  register_past_event dbCap5 2 1 2000000
    ⟨1, "Workshop", 1000000, none, 5, 0, 9, true, 0⟩ (by decide) (by decide)

/-!
 ## C6 — accepted capacity range

Both enforcement layers bound capacity by 1000, not 10000: the middleware
uses `isInt({min: 1, max: 1000})` and the `events` table CHECKs
`capacity BETWEEN 1 AND 1000` (the README documents "capacity limits
(max 1000 per event)"; only an error message in the controller and one test
fixture mention 10000). -/

/-- C6 counterexample: a request with capacity 10000 — claimed to be
accepted — fails validation, at the middleware and at the storage CHECK. -/
theorem capacity_10000_rejected :
    validateCreateEvent (draftWithCapacity 10000) 0 = false ∧
    events_valid_capacity 10000 = false := by
  decide

/-- C6 amended: with every other field valid, create-event validation
succeeds on the capacity field iff `1 ≤ capacity ≤ 1000`; the storage CHECK
constraint enforces the same range. -/
theorem capacity_validation_bound (c : Int) :
    validateCreateEvent (draftWithCapacity c) 0 =
      (decide (1 ≤ c) && decide (c ≤ 1000)) ∧
    events_valid_capacity c = (decide (1 ≤ c) && decide (c ≤ 1000)) := by
  refine ⟨?_, rfl⟩
  have ht : titleValid "Team Meeting" = true := by decide
  have hdt : dateTimeValid 10000000 0 = true := by decide
  simp [validateCreateEvent, draftWithCapacity, descriptionValid, locationValid,
    capacityValid, ht, hdt]

/-!
 ## C7 — the `can_register` flag

The source computes
`can_register = requestingUserId && !isRegistered && !hasEventStarted(...)`:
ownership and event fullness are not consulted, contrary to the claim. -/

/-- C7 counterexample: the owner (user 9) views their own event `dbCap5`;
the code reports `can_register = true`, while the claimed rule (viewer not
the owner, among others) requires `false`. -/
theorem can_register_owner_counterexample :
    (getEventDetails dbCap5 (some 9) 1 0).map EventView.canRegister =
      some true ∧
    canRegisterSpec dbCap5 (some 9)
      ⟨1, "Workshop", 1000000, none, 5, 0, 9, true, 0⟩ 0 = false := by
  decide

/-- C7 amended: `can_register` is true iff the viewer is authenticated, has
no confirmed registration for the event, and the event has not started
(`now < date_time`); whether the viewer owns the event and whether the event
is full are ignored. -/
theorem can_register_fields :
    (∀ db eid now view, getEventDetails db none eid now = some view →
      view.canRegister = false) ∧
    (∀ db u eid now view ev,
      getEventDetails db (some u) eid now = some view →
      findActiveEvent db eid = some ev →
      view.canRegister =
        (!checkUserRegistration db eid u && decide (now < ev.dateTime))) := by
  constructor
  · intro db eid now view hv
    unfold getEventDetails at hv
    cases hf : findActiveEvent db eid with
    | none => rw [hf] at hv; cases hv
    | some ev =>
      rw [hf] at hv
      simp only [Option.some_inj] at hv
      rw [← hv]
      simp
  · intro db u eid now view ev hv hf
    unfold getEventDetails at hv
    rw [hf] at hv
    simp only [Option.some_inj] at hv
    rw [← hv]
    simp only [hasEventStarted, Option.isSome_some, Bool.true_and]
    have : (!decide (ev.dateTime ≤ now)) = decide (now < ev.dateTime) := by
      simp [← decide_not, not_le]
    rw [this]

/-- C7 witness: the amended rule applied to `dbCap5` for an anonymous
viewer and for the authenticated non-owner user 2. -/
theorem can_register_fields_witness :
    (EventView.canRegister ⟨5, false, false, false, false, false⟩ = false) ∧
    (EventView.canRegister ⟨5, false, false, false, true, false⟩ =
      (!checkUserRegistration dbCap5 1 2 && decide ((0 : Int) < 1000000))) :=
  ⟨can_register_fields.1 dbCap5 1 0 ⟨5, false, false, false, false, false⟩
      (by decide),
   can_register_fields.2 dbCap5 2 1 0 ⟨5, false, false, false, true, false⟩
      ⟨1, "Workshop", 1000000, none, 5, 0, 9, true, 0⟩ (by decide) (by decide)⟩

/-!
 ## C8 — sorting of the upcoming-events listing

`getUpcomingEvents` destructures only `page, limit, search, location,
min_capacity, max_capacity, date_from, date_to` from the query; the
validated `sort_by` / `sort_order` parameters are never read, and the SQL
always ends in `ORDER BY e.date_time ASC, e.location ASC NULLS LAST`. -/

/-- C8 counterexample: with `sort_by=capacity&sort_order=DESC` the returned
page is still in date order — capacities `[5, 9]` — which is not descending,
refuting the claimed alternative sort. -/
theorem upcoming_sort_ignored_counterexample :
    (getUpcomingEvents dbSort qCapacityDesc 0).map Event.capacity = [5, 9] ∧
    ¬ List.Pairwise (fun a b : Nat => b ≤ a)
      ((getUpcomingEvents dbSort qCapacityDesc 0).map Event.capacity) := by
  decide

/-- C8 amended: the listing ignores `sort_by` and `sort_order` entirely —
the result is identical to the unsorted request — and every returned page
is ordered by `date_time` ascending, then `location` ascending with nulls
last. -/
theorem upcoming_sort_fixed_order (db : DB) (q : UpcomingQuery) (now : Int) :
    getUpcomingEvents db q now =
      getUpcomingEvents db
        { q with sortBy := none, sortOrder := none } now ∧
    List.Sorted upcomingOrder (getUpcomingEvents db q now) := by
  constructor
  · rfl
  · have hs : List.Sorted upcomingOrder
        ((db.events.filter (matchesUpcoming q now)).insertionSort upcomingOrder) :=
      List.sorted_insertionSort upcomingOrder _
    exact List.Pairwise.sublist
      ((List.take_sublist _ _).trans (List.drop_sublist _ _)) hs

/-!
 ## C9 — `is_event_soon`

The source computes `isEventSoon = timeUntilEvent < 24 * 60 * 60 * 1000`
with no lower bound, so it is also true for events already past. -/

/-- C9 counterexample: for an event 1000 ms in the past the code reports
`is_event_soon = true` with `time_until_event = -1000`, while the claimed
rule `0 < time_until_event < 24h` requires `false`. -/
theorem is_event_soon_past_counterexample :
    (getEventStats dbPast 1 1000).map StatsView.isEventSoon = some true ∧
    (getEventStats dbPast 1 1000).map StatsView.timeUntilEvent =
      some (-1000) ∧
    isEventSoonSpec (-1000) = false := by
  decide

/-- C9 amended: `is_event_soon` is true iff `time_until_event < 24h`, with
no lower bound — in particular it is true, not false, for an event whose
`date_time` has passed. -/
theorem is_event_soon_no_lower_bound (db : DB) (eid : Nat) (now : Int)
    (st : StatsView) (h : getEventStats db eid now = some st) :
    st.isEventSoon = decide (st.timeUntilEvent < 86400000) ∧
    ∃ ev, findActiveEvent db eid = some ev ∧
      st.timeUntilEvent = ev.dateTime - now := by
  unfold getEventStats at h
  cases hf : findActiveEvent db eid with
  | none => rw [hf] at h; cases h
  | some ev =>
    rw [hf] at h
    simp only [Option.some_inj] at h
    refine ⟨?_, ev, rfl, ?_⟩
    · rw [← h]
      norm_num
    · rw [← h]

/-- C9 witness: the amended rule applied to the past event of `dbPast`. -/
theorem is_event_soon_no_lower_bound_witness :
    StatsView.isEventSoon ⟨-1000, true, 0, 5⟩ =
      decide (StatsView.timeUntilEvent ⟨-1000, true, 0, 5⟩ < 86400000) ∧
    ∃ ev, findActiveEvent dbPast 1 = some ev ∧
      StatsView.timeUntilEvent ⟨-1000, true, 0, 5⟩ = ev.dateTime - 1000 :=
  is_event_soon_no_lower_bound dbPast 1 1000 ⟨-1000, true, 0, 5⟩ (by decide)

/-!
 ## C4 — Register is idempotent after Created
-/

/-- C4: after a Register(u, e) that returned Created, an immediate retry
returns AlreadyRegistered and leaves the store — the registration rows and
the event counter — exactly as it was after the first call; the pair (u, e)
has exactly one (confirmed) row. -/
theorem register_idempotent (db : DB) (u e : Nat) (now : Int) (i : Nat)
    (db1 : DB) (hend : eventIdsNodup db)
    (h : registerForEvent db u e now = (RegisterOutcome.created i, db1)) :
    registerForEvent db1 u e now = (RegisterOutcome.alreadyRegistered, db1) ∧
    (regsFor db1 u e).map Registration.status = [RegStatus.confirmed] := by
  obtain ⟨hreg, hi, hdb1, ⟨ev, hf, hpast, hcap⟩, ⟨ev2, hfid, htrig⟩⟩ :=
    registerForEvent_created_elim db u e now i db1 h
  obtain ⟨hmem, hid, hact⟩ := findActiveEvent_some_facts db e ev hf
  have hev2 : ev2 = ev := by
    have hsame := findEventById_of_findActiveEvent db e ev hend hf
    rw [hsame] at hfid
    exact (Option.some_inj.mp hfid).symm
  subst hev2
  have hfa1 : findActiveEvent db1 e =
      some { ev2 with currentRegistrations := confirmedRegCount db e + 1 } := by
    rw [hdb1]
    have hx : findActiveEvent (dbAfterInsert db u e now) e =
        findActiveEvent db e := rfl
    rw [findActiveEvent_setEventCount, hx, hf]
    simp [hid]
  have hregs1 : regsFor db1 u e = [mkRegistration db u e now] := by
    rw [hdb1]
    rw [regsFor_setEventCount]
    exact regsFor_dbAfterInsert_self db u e now hreg
  refine ⟨?_, by rw [hregs1]; simp [mkRegistration]⟩
  unfold registerForEvent
  rw [hfa1]
  simp only [hregs1, List.head?_cons]
  rw [if_neg hpast, if_neg (by simp; omega :
    ¬ ({ ev2 with currentRegistrations := confirmedRegCount db e + 1 } : Event).currentRegistrations ≥
      ({ ev2 with currentRegistrations := confirmedRegCount db e + 1 } : Event).capacity)]
  simp [mkRegistration]

/-- C4 witness: a Created registration on `dbCap5` followed by an immediate
retry. -/
theorem register_idempotent_witness :
    registerForEvent (registerForEvent dbCap5 2 1 0).2 2 1 0 =
      (RegisterOutcome.alreadyRegistered, (registerForEvent dbCap5 2 1 0).2) ∧
    (regsFor (registerForEvent dbCap5 2 1 0).2 2 1).map Registration.status =
      [RegStatus.confirmed] :=
  register_idempotent dbCap5 2 1 0 1 (registerForEvent dbCap5 2 1 0).2
    (by decide) (by decide)

/-!
 ## C5 — Register, Cancel, Register
-/

/-- C5: if Register(u, e), Cancel(u, u, e), Register(u, e) all succeed
(Created, Cancelled, Created), then the final store has exactly one
(confirmed) registration row for (u, e), and the event's counter equals its
value before the sequence plus one. -/
theorem register_cancel_register (db : DB) (u e : Nat)
    (now1 now2 now3 : Int) (i1 i2 : Nat) (db1 db2 db3 : DB) (ev : Event)
    (hfind : findActiveEvent db e = some ev)
    (hcnt : ev.currentRegistrations = confirmedRegCount db e)
    (h1 : registerForEvent db u e now1 = (RegisterOutcome.created i1, db1))
    (h2 : cancelRegistration db1 u false u e now2 = (CancelOutcome.cancelled, db2))
    (h3 : registerForEvent db2 u e now3 = (RegisterOutcome.created i2, db3)) :
    (regsFor db3 u e).map Registration.status = [RegStatus.confirmed] ∧
    (∃ ev3, ev3 ∈ db3.events ∧ ev3.id = e) ∧
    (∀ ev3 ∈ db3.events, ev3.id = e →
      ev3.currentRegistrations = ev.currentRegistrations + 1) := by
  obtain ⟨hreg1, _, hdb1, _, _⟩ :=
    registerForEvent_created_elim db u e now1 i1 db1 h1
  obtain ⟨_, hu⟩ := cancelRegistration_cancelled_elim db1 u false u e now2 db2 h2
  obtain ⟨_, _, hdb2⟩ := safe_event_unregistration_ok_elim db1 u e now2 db2 hu
  obtain ⟨hreg3, _, hdb3, _, _⟩ :=
    registerForEvent_created_elim db2 u e now3 i2 db3 h3
  obtain ⟨hmem, hid, _⟩ := findActiveEvent_some_facts db e ev hfind
  -- the registrations of db2 are exactly those of db
  have hallne : ∀ r ∈ db.registrations, (r.userId == u && r.eventId == e) = false := by
    intro r hr
    have := List.filter_eq_nil_iff.mp hreg1
    have h' := this r hr
    revert h'
    cases (r.userId == u && r.eventId == e) <;> simp
  have hregs2 : db2.registrations = db.registrations := by
    rw [hdb2]
    show (dbAfterDelete db1 u e).registrations = db.registrations
    unfold dbAfterDelete
    rw [hdb1]
    show ((dbAfterInsert db u e now1).registrations.filter
      (fun r => !(r.userId == u && r.eventId == e))) = db.registrations
    unfold dbAfterInsert
    rw [List.filter_append]
    have hmk : ((mkRegistration db u e now1).userId == u &&
        (mkRegistration db u e now1).eventId == e) = true := by
      simp [mkRegistration]
    have h1' : db.registrations.filter
        (fun r => !(r.userId == u && r.eventId == e)) = db.registrations :=
      List.filter_eq_self.mpr (fun r hr => by rw [hallne r hr]; rfl)
    have h2' : ([mkRegistration db u e now1].filter
        (fun r => !(r.userId == u && r.eventId == e))) = [] := by
      simp [mkRegistration]
    rw [h1', h2', List.append_nil]
  have hcnt2 : confirmedRegCount db2 e = confirmedRegCount db e :=
    confirmedRegCount_congr db2 db hregs2 e
  -- final registration rows for (u, e)
  have hregs3 : regsFor db3 u e = [mkRegistration db2 u e now3] := by
    rw [hdb3, regsFor_setEventCount]
    exact regsFor_dbAfterInsert_self db2 u e now3 hreg3
  refine ⟨by rw [hregs3]; simp [mkRegistration], ?_, ?_⟩
  · -- an event row with id e survives the chain
    have m1 : ev ∈ (dbAfterInsert db u e now1).events := hmem
    have m2 := mem_setEventCount_of_mem (dbAfterInsert db u e now1) e
      (confirmedRegCount db e + 1) ev m1
    rw [← hdb1] at m2
    set x1 := if ev.id = e then
      { ev with currentRegistrations := confirmedRegCount db e + 1 } else ev with hx1
    have hx1id : x1.id = e := by
      rw [hx1]
      by_cases hc : ev.id = e <;> simp [hc, hid]
    have m3 : x1 ∈ (dbAfterDelete db1 u e).events := m2
    have m4 := mem_setEventCount_of_mem (dbAfterDelete db1 u e) e
      (confirmedRegCount (dbAfterDelete db1 u e) e) x1 m3
    rw [← hdb2] at m4
    set x2 := if x1.id = e then
      { x1 with currentRegistrations := confirmedRegCount (dbAfterDelete db1 u e) e }
      else x1 with hx2
    have hx2id : x2.id = e := by
      rw [hx2]
      by_cases hc : x1.id = e <;> simp [hc, hx1id]
    have m5 : x2 ∈ (dbAfterInsert db2 u e now3).events := m4
    have m6 := mem_setEventCount_of_mem (dbAfterInsert db2 u e now3) e
      (confirmedRegCount db2 e + 1) x2 m5
    rw [← hdb3] at m6
    refine ⟨_, m6, ?_⟩
    by_cases hc : x2.id = e <;> simp [hc, hx2id]
  · intro ev3 hm3 hid3
    have : ev3.currentRegistrations = confirmedRegCount db2 e + 1 := by
      rw [hdb3] at hm3
      exact setEventCount_lookup _ _ _ ev3 hm3 hid3
    rw [this, hcnt2, hcnt]

/-- C5 witness: the concrete Register–Cancel–Register chain on `dbCap5`. -/
theorem register_cancel_register_witness :
    (regsFor ((registerForEvent
        ((cancelRegistration (registerForEvent dbCap5 2 1 0).2 2 false 2 1 0).2)
        2 1 0).2) 2 1).map Registration.status = [RegStatus.confirmed] ∧
    (∃ ev3, ev3 ∈ ((registerForEvent
        ((cancelRegistration (registerForEvent dbCap5 2 1 0).2 2 false 2 1 0).2)
        2 1 0).2).events ∧ ev3.id = 1) ∧
    (∀ ev3 ∈ ((registerForEvent
        ((cancelRegistration (registerForEvent dbCap5 2 1 0).2 2 false 2 1 0).2)
        2 1 0).2).events, ev3.id = 1 →
      ev3.currentRegistrations =
        (⟨1, "Workshop", 1000000, none, 5, 0, 9, true, 0⟩ : Event).currentRegistrations + 1) :=
  register_cancel_register dbCap5 2 1 0 0 0 1 2
    (registerForEvent dbCap5 2 1 0).2
    (cancelRegistration (registerForEvent dbCap5 2 1 0).2 2 false 2 1 0).2
    (registerForEvent
      ((cancelRegistration (registerForEvent dbCap5 2 1 0).2 2 false 2 1 0).2)
      2 1 0).2
    ⟨1, "Workshop", 1000000, none, 5, 0, 9, true, 0⟩
    (by decide) (by decide) (by decide) (by decide) (by decide)

/-!
 ## C10 — Cancel deletes the row; Reactivated is unreachable after Cancel
-/

/-- Without an existing row for the pair, a Register call can never report
Reactivated. -/
theorem registerForEvent_no_row_ne_reactivated (db : DB) (u e : Nat)
    (now : Int) (i : Nat) (hreg : regsFor db u e = []) :
    (registerForEvent db u e now).1 ≠ RegisterOutcome.reactivated i := by
  unfold registerForEvent
  split
  · simp
  · split
    · simp
    · split
      · simp
      · split
        · rename_i r hh
          rw [hreg] at hh
          simp at hh
        · exact mapSafeRegResult_fst_ne_reactivated db _ i

/-- A Register call reports Reactivated only when a cancelled row for the
pair already exists in the store. -/
theorem registerForEvent_reactivated_elim (db : DB) (u e : Nat) (now : Int)
    (i : Nat)
    (h : (registerForEvent db u e now).1 = RegisterOutcome.reactivated i) :
    ∃ r, r ∈ db.registrations ∧ r.userId = u ∧ r.eventId = e ∧
      r.status = RegStatus.cancelled := by
  unfold registerForEvent at h
  split at h
  · simp at h
  · split at h
    · simp at h
    · split at h
      · simp at h
      · split at h
        · rename_i r hh
          split at h
          · simp at h
          · split at h
            · rename_i hc1 hc2
              have hr : r ∈ regsFor db u e := by
                obtain ⟨ys, hys⟩ := List.head?_eq_some_iff.mp hh
                rw [hys]
                exact List.mem_cons_self _ _
              have hm := List.mem_filter.mp hr
              have hsplit := (Bool.and_eq_true _ _).mp hm.2
              exact ⟨r, hm.1, beq_iff_eq.mp hsplit.1, beq_iff_eq.mp hsplit.2, hc2⟩
            · exact absurd h (mapSafeRegResult_fst_ne_reactivated db _ i)
        · exact absurd h (mapSafeRegResult_fst_ne_reactivated db _ i)

/-- C10: a successful Cancel physically deletes the registration row — no
row for the pair remains, and a subsequent Register can never take the
Reactivated path; conversely, Reactivated is reachable only from a store
that already holds a cancelled row for the pair (which Cancel never
leaves behind). -/
theorem cancel_deletes_row :
    (∀ db a adm t e now db',
      cancelRegistration db a adm t e now = (CancelOutcome.cancelled, db') →
      regsFor db' t e = [] ∧
      ∀ now2 i, (registerForEvent db' t e now2).1 ≠ RegisterOutcome.reactivated i) ∧
    (∀ db u e now i,
      (registerForEvent db u e now).1 = RegisterOutcome.reactivated i →
      ∃ r, r ∈ db.registrations ∧ r.userId = u ∧ r.eventId = e ∧
        r.status = RegStatus.cancelled) := by
  constructor
  · intro db a adm t e now db' h
    obtain ⟨_, hu⟩ := cancelRegistration_cancelled_elim db a adm t e now db' h
    obtain ⟨_, _, hdb⟩ := safe_event_unregistration_ok_elim db t e now db' hu
    have hreg : regsFor db' t e = [] := by
      rw [hdb, regsFor_setEventCount]
      exact regsFor_dbAfterDelete_self db t e
    exact ⟨hreg, fun now2 i =>
      registerForEvent_no_row_ne_reactivated db' t e now2 i hreg⟩
  · exact registerForEvent_reactivated_elim

/-- C10 witness: a concrete Cancel on a registered store, and a concrete
Reactivated outcome reached from a hand-inserted cancelled row. -/
theorem cancel_deletes_row_witness :
    (regsFor (cancelRegistration (registerForEvent dbCap5 2 1 0).2
        2 false 2 1 0).2 2 1 = [] ∧
      ∀ now2 i,
        (registerForEvent (cancelRegistration (registerForEvent dbCap5 2 1 0).2
          2 false 2 1 0).2 2 1 now2).1 ≠ RegisterOutcome.reactivated i) ∧
    (∃ r, r ∈ dbCancelledRow.registrations ∧ r.userId = 2 ∧ r.eventId = 1 ∧
      r.status = RegStatus.cancelled) :=
  ⟨cancel_deletes_row.1 (registerForEvent dbCap5 2 1 0).2 2 false 2 1 0
      (cancelRegistration (registerForEvent dbCap5 2 1 0).2 2 false 2 1 0).2
      (by decide),
   cancel_deletes_row.2 dbCancelledRow 2 1 0 4 (by decide)⟩

end EventMgmt
